import Mathlib

/-!
# Verification of the beats-output-http delivery engine (`http.go`)

Shallow embedding of the HTTP output plugin's delivery engine:

* `Publish` — the batch-delivery loop (`httpOutput.Publish`, http.go:232-276),
  modelled as a pure function producing the ordered trace of externally
  visible calls (batch callbacks, observer notifications, send attempts).
* `send` — the send operation (`httpOutput.send`, http.go:282-305).
* `DialContext` — the custom dialer closure (http.go:97-114).
* `getReq`/`putReq` — the request pool (`httpOutput.getReq`/`putReq`,
  http.go:307-332).
* `serializeOnlyFields` — the fixed-format extractor (http.go:175-221).

Effectful Go code is embedded by making the external collaborators
(serializer, HTTP client, DNS resolver, request constructor) explicit
function parameters and by returning, alongside the Go return value, the
ordered list of observable side effects the function performs.
-/

namespace BeatsHttp

/-- Serialization failure (the `error` returned by a serialize strategy). -/
inductive SerErr where
  | serErr (msg : String)
deriving DecidableEq, Repr

/-- Failure of `out.send` as seen from `Publish`. -/
inductive SendErr where
  | sendErr (msg : String)
deriving DecidableEq, Repr

/-- A publisher event.  The delivery engine treats events as opaque apart
from the `Guaranteed()` flag, which only selects a log severity. -/
structure Event where
  id : Nat
  guaranteed : Bool
deriving DecidableEq, Repr

/-- One externally visible call made by `httpOutput.Publish`
(http.go:232-276), in program order:
`batch.ACK()`, `batch.RetryEvents(events)`, `st.NewBatch(n)`,
`st.Acked(n)`, `st.Failed(n)`, and each invocation of `out.send(data)`. -/
inductive Call where
  | newBatch (n : Nat)
  | ack
  | retryEvents (evs : List Event)
  | obsAcked (n : Nat)
  | obsFailed (n : Nat)
  | sendAttempt (data : List Nat)
deriving DecidableEq, Repr

/-- The `for i := range events` loop body of `httpOutput.Publish`
(http.go:242-275), producing the trace of calls.  `all` is the full
`events` slice (used by `batch.RetryEvents(events)` and
`st.Failed(len(events))`); `rest` is the remaining suffix to process.
After the loop, `batch.ACK()` then `st.Acked(len(events))` run. -/
def publishLoop (serialize : Event → Except SerErr (List Nat))
    (send : List Nat → Option SendErr)
    (all : List Event) : List Event → List Call
  | [] => [.ack, .obsAcked all.length]
  | e :: rest =>
    match serialize e with
    | .error _ => [.retryEvents all, .obsFailed all.length]
    | .ok data =>
      Call.sendAttempt data ::
        (match send data with
         | some _ => [.obsFailed all.length]
         | none => publishLoop serialize send all rest)

/-- `httpOutput.Publish` (http.go:232-276): `st.NewBatch(len(events))`,
then the empty-batch early `batch.ACK()`, otherwise the per-event loop. -/
def Publish (serialize : Event → Except SerErr (List Nat))
    (send : List Nat → Option SendErr)
    (events : List Event) : List Call :=
  Call.newBatch events.length ::
    (if events.length = 0 then [Call.ack]
     else publishLoop serialize send events events)

/-- Number of `batch.ACK()` calls in a trace. -/
def ackCount (t : List Call) : Nat :=
  (t.filter fun c => match c with | .ack => true | _ => false).length

/-- Arguments of the `batch.RetryEvents` calls in a trace, in order. -/
def retryCalls (t : List Call) : List (List Event) :=
  t.filterMap fun c => match c with | .retryEvents evs => some evs | _ => none

/-- Arguments of the `st.Acked` observer calls in a trace, in order. -/
def ackedCalls (t : List Call) : List Nat :=
  t.filterMap fun c => match c with | .obsAcked n => some n | _ => none

/-- Arguments of the `st.Failed` observer calls in a trace, in order. -/
def failedCalls (t : List Call) : List Nat :=
  t.filterMap fun c => match c with | .obsFailed n => some n | _ => none

/-- Payloads passed to `out.send` in a trace, in order. -/
def sendCalls (t : List Call) : List (List Nat) :=
  t.filterMap fun c => match c with | .sendAttempt d => some d | _ => none

/-- A trace consisting only of send attempts contributes nothing to the
callback/observer counters and one entry per element to `sendCalls`. -/
theorem counters_of_sendAttempts (pres : List Call)
    (h : ∀ c ∈ pres, ∃ d, c = Call.sendAttempt d) :
    ackCount pres = 0 ∧ retryCalls pres = [] ∧ ackedCalls pres = [] ∧
    failedCalls pres = [] ∧ (sendCalls pres).length = pres.length := by
  induction pres with
  | nil => simp [ackCount, retryCalls, ackedCalls, failedCalls, sendCalls]
  | cons c cs ih =>
    obtain ⟨d, rfl⟩ := h c (by simp)
    have ih2 := ih (fun x hx => h x (by simp [hx]))
    simp only [ackCount, retryCalls, ackedCalls, failedCalls, sendCalls,
      List.filter_cons, List.filterMap_cons] at ih2 ⊢
    simpa using ih2

/-- Processing a prefix of events that all serialize and send successfully
only emits send attempts, then continues with the rest of the batch. -/
theorem publishLoop_ok_prefix (serialize : Event → Except SerErr (List Nat))
    (send : List Nat → Option SendErr) (all : List Event) :
    ∀ pre rest : List Event,
      (∀ e ∈ pre, ∃ b, serialize e = .ok b ∧ send b = none) →
      ∃ pres : List Call,
        publishLoop serialize send all (pre ++ rest) =
          pres ++ publishLoop serialize send all rest ∧
        pres.length = pre.length ∧
        ∀ c ∈ pres, ∃ d, c = Call.sendAttempt d := by
  intro pre
  induction pre with
  | nil => exact fun rest _ => ⟨[], by simp, rfl, by simp⟩
  | cons e pre ih =>
    intro rest h
    obtain ⟨b, hb, hsend⟩ := h e (by simp)
    obtain ⟨pres, heq, hlen, hall⟩ := ih rest (fun x hx => h x (by simp [hx]))
    refine ⟨Call.sendAttempt b :: pres, ?_, by simp [hlen], ?_⟩
    · simp [publishLoop, hb, hsend, heq]
    · intro c hc
      rcases List.mem_cons.mp hc with rfl | hc
      · exact ⟨b, rfl⟩
      · exact hall c hc

/-- C1: For every non-empty batch in which every event both serializes and
sends successfully, `Publish` calls `batch.ACK()` exactly once, never calls
`batch.RetryEvents`, and reports `st.Acked(len(events))` (and no
`st.Failed`) to the observer. -/
theorem C1_publish_all_ok (serialize : Event → Except SerErr (List Nat))
    (send : List Nat → Option SendErr) (events : List Event)
    (hne : events ≠ [])
    (hok : ∀ e ∈ events, ∃ b, serialize e = .ok b ∧ send b = none) :
    ackCount (Publish serialize send events) = 1 ∧
    retryCalls (Publish serialize send events) = [] ∧
    ackedCalls (Publish serialize send events) = [events.length] ∧
    failedCalls (Publish serialize send events) = [] := by
  obtain ⟨pres, heq, hlen, hall⟩ :=
    publishLoop_ok_prefix serialize send events events [] hok
  rw [List.append_nil] at heq
  obtain ⟨h1, h2, h3, h4, h5⟩ := counters_of_sendAttempts pres hall
  have hlen0 : ¬ events.length = 0 := by
    simpa using hne
  unfold Publish
  rw [if_neg hlen0, heq]
  simp only [publishLoop] at *
  refine ⟨?_, ?_, ?_, ?_⟩
  · simpa [ackCount, List.filter_cons, List.filter_append] using h1
  · simpa [retryCalls, List.filterMap_cons, List.filterMap_append] using h2
  · simpa [ackedCalls, List.filterMap_cons, List.filterMap_append] using h3
  · simpa [failedCalls, List.filterMap_cons, List.filterMap_append] using h4

/-- C1 witness: a concrete two-event batch where everything succeeds. -/
theorem C1_publish_all_ok_witness :
    ackCount (Publish (fun _ => .ok [7]) (fun _ => none)
      [⟨0, false⟩, ⟨1, true⟩]) = 1 ∧
    retryCalls (Publish (fun _ => .ok [7]) (fun _ => none)
      [⟨0, false⟩, ⟨1, true⟩]) = [] ∧
    ackedCalls (Publish (fun _ => .ok [7]) (fun _ => none)
      [⟨0, false⟩, ⟨1, true⟩]) = [2] ∧
    failedCalls (Publish (fun _ => .ok [7]) (fun _ => none)
      [⟨0, false⟩, ⟨1, true⟩]) = [] :=
  C1_publish_all_ok (fun _ => .ok [7]) (fun _ => none) [⟨0, false⟩, ⟨1, true⟩]
    (by decide) (fun e _ => ⟨[7], rfl, rfl⟩)

/-- C2: For every batch in which the Nth event serializes but its send
fails, `Publish` calls neither `batch.ACK` nor `batch.RetryEvents`,
attempts exactly the sends for events 1..N (none after N), and reports
`st.Failed(len(events))` — and no `st.Acked` — to the observer
(http.go:260-270; note the commented-out `batch.RetryEvents`). -/
theorem C2_send_failure (serialize : Event → Except SerErr (List Nat))
    (send : List Nat → Option SendErr) (events pre post : List Event)
    (e : Event) (b : List Nat) (err : SendErr)
    (hsplit : events = pre ++ e :: post)
    (hpre : ∀ x ∈ pre, ∃ d, serialize x = .ok d ∧ send d = none)
    (hser : serialize e = .ok b)
    (hsend : send b = some err) :
    ackCount (Publish serialize send events) = 0 ∧
    retryCalls (Publish serialize send events) = [] ∧
    ackedCalls (Publish serialize send events) = [] ∧
    failedCalls (Publish serialize send events) = [events.length] ∧
    (sendCalls (Publish serialize send events)).length = pre.length + 1 := by
  subst hsplit
  obtain ⟨pres, heq, hlen, hall⟩ :=
    publishLoop_ok_prefix serialize send (pre ++ e :: post) pre (e :: post) hpre
  obtain ⟨h1, h2, h3, h4, h5⟩ := counters_of_sendAttempts pres hall
  have hlen0 : ¬ (pre ++ e :: post).length = 0 := by simp
  unfold Publish
  rw [if_neg hlen0, heq]
  rw [show publishLoop serialize send (pre ++ e :: post) (e :: post) =
      Call.sendAttempt b :: [Call.obsFailed (pre ++ e :: post).length] by
    simp [publishLoop, hser, hsend]]
  refine ⟨?_, ?_, ?_, ?_, ?_⟩
  · simpa [ackCount, List.filter_cons, List.filter_append] using h1
  · simpa [retryCalls, List.filterMap_cons, List.filterMap_append] using h2
  · simpa [ackedCalls, List.filterMap_cons, List.filterMap_append] using h3
  · simpa [failedCalls, List.filterMap_cons, List.filterMap_append] using h4
  · simp only [sendCalls] at h5
    simp [sendCalls, List.filterMap_cons, List.filterMap_append]
    omega

/-- C2 witness: a two-event batch whose first event's send fails. -/
theorem C2_send_failure_witness :
    ackCount (Publish (fun _ => .ok [7]) (fun _ => some (.sendErr "bad code"))
      [⟨0, false⟩, ⟨1, false⟩]) = 0 ∧
    retryCalls (Publish (fun _ => .ok [7]) (fun _ => some (.sendErr "bad code"))
      [⟨0, false⟩, ⟨1, false⟩]) = [] ∧
    ackedCalls (Publish (fun _ => .ok [7]) (fun _ => some (.sendErr "bad code"))
      [⟨0, false⟩, ⟨1, false⟩]) = [] ∧
    failedCalls (Publish (fun _ => .ok [7]) (fun _ => some (.sendErr "bad code"))
      [⟨0, false⟩, ⟨1, false⟩]) = [2] ∧
    (sendCalls (Publish (fun _ => .ok [7]) (fun _ => some (.sendErr "bad code"))
      [⟨0, false⟩, ⟨1, false⟩])).length = List.length ([] : List Event) + 1 := by
  have h := C2_send_failure (fun _ => .ok [7])
    (fun _ => some (.sendErr "bad code"))
    [⟨0, false⟩, ⟨1, false⟩] [] [⟨1, false⟩] ⟨0, false⟩ [7]
    (.sendErr "bad code") rfl (fun x hx => by cases hx) rfl rfl
  exact h

/-- C3: For every batch in which the Nth event fails serialization,
`Publish` calls `batch.RetryEvents` exactly once with the full original
event slice, attempts only the sends of the N-1 earlier events (none for
the failed event or after it), and never calls `batch.ACK`
(http.go:242-258). -/
theorem C3_serialize_failure (serialize : Event → Except SerErr (List Nat))
    (send : List Nat → Option SendErr) (events pre post : List Event)
    (e : Event) (err : SerErr)
    (hsplit : events = pre ++ e :: post)
    (hpre : ∀ x ∈ pre, ∃ d, serialize x = .ok d ∧ send d = none)
    (hser : serialize e = .error err) :
    retryCalls (Publish serialize send events) = [events] ∧
    ackCount (Publish serialize send events) = 0 ∧
    ackedCalls (Publish serialize send events) = [] ∧
    (sendCalls (Publish serialize send events)).length = pre.length := by
  subst hsplit
  obtain ⟨pres, heq, hlen, hall⟩ :=
    publishLoop_ok_prefix serialize send (pre ++ e :: post) pre (e :: post) hpre
  obtain ⟨h1, h2, h3, h4, h5⟩ := counters_of_sendAttempts pres hall
  have hlen0 : ¬ (pre ++ e :: post).length = 0 := by simp
  unfold Publish
  rw [if_neg hlen0, heq]
  rw [show publishLoop serialize send (pre ++ e :: post) (e :: post) =
      [Call.retryEvents (pre ++ e :: post),
       Call.obsFailed (pre ++ e :: post).length] by
    simp [publishLoop, hser]]
  refine ⟨?_, ?_, ?_, ?_⟩
  · simpa [retryCalls, List.filterMap_cons, List.filterMap_append] using h2
  · simpa [ackCount, List.filter_cons, List.filter_append] using h1
  · simpa [ackedCalls, List.filterMap_cons, List.filterMap_append] using h3
  · simp only [sendCalls] at h5
    simp [sendCalls, List.filterMap_cons, List.filterMap_append]
    omega

/-- C3 witness: a two-event batch whose second event fails serialization. -/
theorem C3_serialize_failure_witness :
    retryCalls (Publish
      (fun e => if e.id = 0 then .ok [7] else .error (.serErr "no body"))
      (fun _ => none) [⟨0, false⟩, ⟨1, false⟩]) =
        [[⟨0, false⟩, ⟨1, false⟩]] ∧
    ackCount (Publish
      (fun e => if e.id = 0 then .ok [7] else .error (.serErr "no body"))
      (fun _ => none) [⟨0, false⟩, ⟨1, false⟩]) = 0 ∧
    ackedCalls (Publish
      (fun e => if e.id = 0 then .ok [7] else .error (.serErr "no body"))
      (fun _ => none) [⟨0, false⟩, ⟨1, false⟩]) = [] ∧
    (sendCalls (Publish
      (fun e => if e.id = 0 then .ok [7] else .error (.serErr "no body"))
      (fun _ => none) [⟨0, false⟩, ⟨1, false⟩])).length =
        List.length ([⟨0, false⟩] : List Event) := by
  have h := C3_serialize_failure
    (fun e => if e.id = 0 then .ok [7] else .error (.serErr "no body"))
    (fun _ => none) [⟨0, false⟩, ⟨1, false⟩] [⟨0, false⟩] [] ⟨1, false⟩
    (.serErr "no body") rfl
    (fun x hx => by
      have hx0 : x = (⟨0, false⟩ : Event) := by simpa using hx
      exact ⟨[7], by simp [hx0], rfl⟩)
    rfl
  exact h

/-- C4 counterexample: on a one-event batch whose event fails
serialization, the full trace of `Publish` shows the observer is notified
via `st.Failed(1)` (http.go:256), not any `Retried` outcome — refuting the
claim that the result communicated to the metrics observer on the
serialization-failure path is `Retried(count)` rather than
`Failed(count)`. -/
theorem C4_observer_counterexample :
    Publish (fun _ => .error (.serErr "bad")) (fun _ => none) [⟨0, false⟩] =
      [Call.newBatch 1, Call.retryEvents [⟨0, false⟩], Call.obsFailed 1] := by
  rfl

/-- C4 amended: when the Nth event of a batch fails serialization (all
earlier events succeeding), the batch callbacks do receive
`RetryEvents(events)`, but the outcome reported to the metrics observer is
`st.Failed(len(events))` — never an `Acked` (and the observer interface
used by the code has no `Retried` outcome at all). -/
theorem C4_amended_observer_failed (serialize : Event → Except SerErr (List Nat))
    (send : List Nat → Option SendErr) (events pre post : List Event)
    (e : Event) (err : SerErr)
    (hsplit : events = pre ++ e :: post)
    (hpre : ∀ x ∈ pre, ∃ d, serialize x = .ok d ∧ send d = none)
    (hser : serialize e = .error err) :
    failedCalls (Publish serialize send events) = [events.length] ∧
    ackedCalls (Publish serialize send events) = [] ∧
    retryCalls (Publish serialize send events) = [events] := by
  subst hsplit
  obtain ⟨pres, heq, hlen, hall⟩ :=
    publishLoop_ok_prefix serialize send (pre ++ e :: post) pre (e :: post) hpre
  obtain ⟨h1, h2, h3, h4, h5⟩ := counters_of_sendAttempts pres hall
  have hlen0 : ¬ (pre ++ e :: post).length = 0 := by simp
  unfold Publish
  rw [if_neg hlen0, heq]
  rw [show publishLoop serialize send (pre ++ e :: post) (e :: post) =
      [Call.retryEvents (pre ++ e :: post),
       Call.obsFailed (pre ++ e :: post).length] by
    simp [publishLoop, hser]]
  refine ⟨?_, ?_, ?_⟩
  · simpa [failedCalls, List.filterMap_cons, List.filterMap_append] using h4
  · simpa [ackedCalls, List.filterMap_cons, List.filterMap_append] using h3
  · simpa [retryCalls, List.filterMap_cons, List.filterMap_append] using h2

/-- C4 amended witness: a one-event batch failing serialization. -/
theorem C4_amended_observer_failed_witness :
    failedCalls (Publish (fun _ => .error (.serErr "bad")) (fun _ => none)
      [⟨0, false⟩]) = [1] ∧
    ackedCalls (Publish (fun _ => .error (.serErr "bad")) (fun _ => none)
      [⟨0, false⟩]) = [] ∧
    retryCalls (Publish (fun _ => .error (.serErr "bad")) (fun _ => none)
      [⟨0, false⟩]) = [[⟨0, false⟩]] := by
  have h := C4_amended_observer_failed (fun _ => .error (.serErr "bad"))
    (fun _ => none) [⟨0, false⟩] [] [] ⟨0, false⟩ (.serErr "bad") rfl
    (fun x hx => by cases hx) rfl
  exact h

/-! ## The send operation (`httpOutput.send`, http.go:282-305) -/

/-- A Go `error` value as it appears in `send`, `getReq` and the dialer. -/
inductive GoErr where
  | tag (msg : String)
  | badResponseCode (code : Nat)
deriving DecidableEq, Repr

/-- A pooled `*http.Request` as the code manipulates it: the body and the
three headers `getReq` touches (`User-Agent`, `Content-Type`, and the
basic-auth `Authorization` credentials).  A fresh `http.NewRequest("POST",
url, nil)` has all of them unset. -/
structure Request where
  body : Option (List Nat)
  userAgent : Option String
  contentType : Option String
  basicAuth : Option (String × String)
deriving DecidableEq, Repr

/-- An `*http.Response`: the status code, plus whether `resp.Body.Close()`
will fail. -/
structure Response where
  statusCode : Nat
  bodyCloseErr : Option GoErr
deriving DecidableEq, Repr

/-- Observable steps of one `httpOutput.send` call, in order:
the deferred `out.putReq(req)`, the `resp.Body.Close()` (with whether it
failed), and the warning log emitted when the close fails. -/
inductive SendEv where
  | didPutReq
  | closeBody (failed : Bool)
  | warnCloseLog
deriving DecidableEq, Repr

/-- `httpOutput.send` (http.go:282-305).  `getReqResult` is the outcome of
`out.getReq(data)` and `clientDo` the outcome of `out.client.Do(req)`.
Returns the Go error result together with the ordered step trace:
on a `getReq` error, return immediately; otherwise `putReq` is deferred;
on a `client.Do` error, return it; otherwise close the body (logging a
close failure), then fail with `bad response code` unless the status is
exactly `http.StatusOK` (200). -/
def send (getReqResult : Except GoErr Request)
    (clientDo : Request → Except GoErr Response) :
    Except GoErr Unit × List SendEv :=
  match getReqResult with
  | .error e => (.error e, [])
  | .ok req =>
    match clientDo req with
    | .error e => (.error e, [.didPutReq])
    | .ok resp =>
      let closeTrace :=
        match resp.bodyCloseErr with
        | some _ => [SendEv.closeBody true, SendEv.warnCloseLog]
        | none => [SendEv.closeBody false]
      if resp.statusCode ≠ 200 then
        (.error (.badResponseCode resp.statusCode), closeTrace ++ [.didPutReq])
      else
        (.ok (), closeTrace ++ [.didPutReq])

/-- C5: `send` returns an error iff the request could not be issued
(`getReq` failed or `client.Do` failed) or the response status is anything
other than HTTP 200; every non-200 status yields an error with no 4xx/5xx
distinction. -/
theorem C5_send_error_iff (getReqResult : Except GoErr Request)
    (clientDo : Request → Except GoErr Response) :
    (∃ e, (send getReqResult clientDo).1 = .error e) ↔
      ((∃ e, getReqResult = .error e) ∨
       (∃ req, getReqResult = .ok req ∧
         ((∃ e, clientDo req = .error e) ∨
          (∃ resp, clientDo req = .ok resp ∧ resp.statusCode ≠ 200)))) := by
  cases hg : getReqResult with
  | error e => simp [send]
  | ok req =>
    cases hdo : clientDo req with
    | error e => simp [send, hdo]
    | ok resp =>
      by_cases hst : resp.statusCode = 200
      · simp [send, hdo, hst]
      · simp [send, hdo, hst]

/-- C6: whenever `send` receives a response (whatever its status), it
closes the response body before returning; a close failure is logged as a
warning and never itself causes `send` to return an error (a 200 response
with a failing body-close still yields a nil error). -/
theorem C6_close_body (getReqResult : Except GoErr Request)
    (clientDo : Request → Except GoErr Response) (req : Request)
    (resp : Response)
    (hg : getReqResult = .ok req)
    (hdo : clientDo req = .ok resp) :
    SendEv.closeBody resp.bodyCloseErr.isSome ∈ (send getReqResult clientDo).2 ∧
    (resp.bodyCloseErr.isSome = true →
      SendEv.warnCloseLog ∈ (send getReqResult clientDo).2) ∧
    (resp.statusCode = 200 → (send getReqResult clientDo).1 = .ok ()) := by
  subst hg
  cases hclose : resp.bodyCloseErr with
  | some e =>
    by_cases hst : resp.statusCode = 200 <;>
      simp [send, hdo, hclose, hst]
  | none =>
    by_cases hst : resp.statusCode = 200 <;>
      simp [send, hdo, hclose, hst]

/-- C6 witness: a 200 response whose body-close fails is still a
successful send, with the close and the warning in the trace. -/
theorem C6_close_body_witness :
    SendEv.closeBody (Option.isSome (some (GoErr.tag "closefail"))) ∈
      (send (.ok ⟨none, none, none, none⟩)
        (fun _ => .ok ⟨200, some (.tag "closefail")⟩)).2 ∧
    (Option.isSome (some (GoErr.tag "closefail")) = true →
      SendEv.warnCloseLog ∈
        (send (.ok ⟨none, none, none, none⟩)
          (fun _ => .ok ⟨200, some (.tag "closefail")⟩)).2) ∧
    ((200 : Nat) = 200 →
      (send (.ok ⟨none, none, none, none⟩)
        (fun _ => .ok ⟨200, some (.tag "closefail")⟩)).1 = .ok ()) := by
  have h := C6_close_body (.ok ⟨none, none, none, none⟩)
    (fun _ => .ok ⟨200, some (.tag "closefail")⟩)
    ⟨none, none, none, none⟩ ⟨200, some (.tag "closefail")⟩ rfl rfl
  exact h

/-! ## The dialer closure (`DialContext` in `httpOutput.init`,
http.go:97-114) -/

/-- An open network connection (opaque). -/
structure Conn where
  id : Nat
deriving DecidableEq, Repr

/-- `net.JoinHostPort`: joins an address and a port, bracketing the host
when it contains a colon (IPv6 literals). -/
def joinHostPort (host port : String) : String :=
  if host.data.contains ':' then "[" ++ host ++ "]:" ++ port
  else host ++ ":" ++ port

/-- The `for _, ip := range ips` loop of the dialer closure
(http.go:106-112), with Go's named return values `conn, err` threaded
through (`dialIP` is `dialer.DialContext` on a joined `ip:port`; a failed
attempt leaves `conn = nil, err = e`; a successful one sets
`conn = c, err = nil` and breaks).  Also returns the list of addresses a
connection was attempted to, in order. -/
def dialLoop (dialIP : String → Except GoErr Conn) (port : String) :
    List String → Option Conn → Option GoErr →
    (Option Conn × Option GoErr) × List String
  | [], conn, err => ((conn, err), [])
  | ip :: rest, _, _ =>
    match dialIP (joinHostPort ip port) with
    | .ok c => ((some c, none), [joinHostPort ip port])
    | .error e =>
      let r := dialLoop dialIP port rest none (some e)
      (r.1, joinHostPort ip port :: r.2)

/-- The `DialContext` closure installed on the transport (http.go:97-114):
split `addr` into host and port (`splitResult` is the outcome of
`net.SplitHostPort(addr)`), look the host up in the DNS cache
(`lookupHost` is `dnsCache.LookupHost`), then try each returned IP in
order.  Returns `(conn, err)` plus the ordered list of attempted
addresses. -/
def DialContext (lookupHost : String → Except GoErr (List String))
    (dialIP : String → Except GoErr Conn)
    (splitResult : Except GoErr (String × String)) :
    (Option Conn × Option GoErr) × List String :=
  match splitResult with
  | .error e => ((none, some e), [])
  | .ok (host, port) =>
    match lookupHost host with
    | .error e => ((none, some e), [])
    | .ok ips => dialLoop dialIP port ips none none

/-- One failed iteration of the dial loop: a failing head address is
recorded and the loop continues on the tail with `conn = nil, err = e`. -/
theorem dialLoop_cons_fail (dialIP : String → Except GoErr Conn)
    (port ip : String) (rest : List String) (c0 : Option Conn)
    (e0 : Option GoErr) (e : GoErr)
    (h : dialIP (joinHostPort ip port) = .error e) :
    dialLoop dialIP port (ip :: rest) c0 e0 =
      ((dialLoop dialIP port rest none (some e)).1,
        joinHostPort ip port :: (dialLoop dialIP port rest none (some e)).2) := by
  simp [dialLoop, h]

/-- If every IP in the list fails to dial and the last one fails with
`e`, the loop returns `(nil, e)` after attempting every address in
order, whatever the incoming `conn`/`err` values. -/
theorem dialLoop_all_fail (dialIP : String → Except GoErr Conn)
    (port : String) :
    ∀ ips : List String,
      (∀ p ∈ ips, ∃ e2, dialIP (joinHostPort p port) = .error e2) →
      ∀ ipLast e, ips.getLast? = some ipLast →
        dialIP (joinHostPort ipLast port) = .error e →
        ∀ c0 e0, dialLoop dialIP port ips c0 e0 =
          ((none, some e), ips.map fun q => joinHostPort q port) := by
  intro ips
  induction ips with
  | nil => intro _ ipLast e hlast; cases hlast
  | cons a rest ih =>
    intro hfail ipLast e hlast hlasterr c0 e0
    obtain ⟨ea, hea⟩ := hfail a (by simp)
    cases rest with
    | nil =>
      have ha : a = ipLast := by simpa using hlast
      subst ha
      rw [hea] at hlasterr
      cases hlasterr
      simp [dialLoop, hea]
    | cons b t =>
      have hlast2 : (b :: t).getLast? = some ipLast := by
        simpa [List.getLast?_cons_cons] using hlast
      have hrec := ih (fun p hp => hfail p (by simp [hp])) ipLast e hlast2
        hlasterr none (some ea)
      rw [dialLoop_cons_fail dialIP port a (b :: t) c0 e0 ea hea, hrec]
      simp

/-- If every IP in `pre` fails and `ip` dials successfully, the loop stops
at `ip`: it returns that connection with a nil error, having attempted
exactly `pre ++ [ip]` in order. -/
theorem dialLoop_first_success (dialIP : String → Except GoErr Conn)
    (port : String) :
    ∀ (pre : List String) (ip : String) (rest : List String) (c : Conn),
      (∀ p ∈ pre, ∃ e2, dialIP (joinHostPort p port) = .error e2) →
      dialIP (joinHostPort ip port) = .ok c →
      ∀ c0 e0, dialLoop dialIP port (pre ++ ip :: rest) c0 e0 =
        ((some c, none), (pre ++ [ip]).map fun q => joinHostPort q port) := by
  intro pre
  induction pre with
  | nil =>
    intro ip rest c _ hok c0 e0
    simp [dialLoop, hok]
  | cons a pre ih =>
    intro ip rest c hfail hok c0 e0
    obtain ⟨ea, hea⟩ := hfail a (by simp)
    have := ih ip rest c (fun p hp => hfail p (by simp [hp])) hok none (some ea)
    simp [dialLoop, hea, this]

/-- C7: the dialer resolves the host through the DNS cache and attempts a
connection to each returned IP joined with the original port, in order,
stopping at and returning the first successful connection; if every
candidate fails it returns the last encountered dial error (the code
returns that error value itself as the dial failure), and if resolution
fails that error is returned directly with no connection attempted. -/
theorem C7_dialer (lookupHost : String → Except GoErr (List String))
    (dialIP : String → Except GoErr Conn) (host port : String) :
    (∀ e, lookupHost host = .error e →
      DialContext lookupHost dialIP (.ok (host, port)) = ((none, some e), [])) ∧
    (∀ ips pre ip rest c, lookupHost host = .ok ips →
      ips = pre ++ ip :: rest →
      (∀ p ∈ pre, ∃ e2, dialIP (joinHostPort p port) = .error e2) →
      dialIP (joinHostPort ip port) = .ok c →
      DialContext lookupHost dialIP (.ok (host, port)) =
        ((some c, none), (pre ++ [ip]).map fun q => joinHostPort q port)) ∧
    (∀ ips ipLast e, lookupHost host = .ok ips →
      (∀ p ∈ ips, ∃ e2, dialIP (joinHostPort p port) = .error e2) →
      ips.getLast? = some ipLast →
      dialIP (joinHostPort ipLast port) = .error e →
      DialContext lookupHost dialIP (.ok (host, port)) =
        ((none, some e), ips.map fun q => joinHostPort q port)) := by
  refine ⟨?_, ?_, ?_⟩
  · intro e he
    simp [DialContext, he]
  · intro ips pre ip rest c hlook hsplit hfail hok
    subst hsplit
    simp only [DialContext, hlook]
    exact dialLoop_first_success dialIP port pre ip rest c hfail hok none none
  · intro ips ipLast e hlook hfail hlast hlasterr
    simp only [DialContext, hlook]
    exact dialLoop_all_fail dialIP port ips hfail ipLast e hlast hlasterr none none

/-- C7 witness: a host resolving to two IPs where the first refuses and
the second accepts — the dial succeeds on the second attempt. -/
theorem C7_dialer_witness :
    DialContext (fun _ => .ok ["10.0.0.1", "10.0.0.2"])
      (fun a => if a = "10.0.0.2:80" then .ok ⟨1⟩
                else .error (.tag "connection refused"))
      (.ok ("example.com", "80")) =
      ((some ⟨1⟩, none), ["10.0.0.1:80", "10.0.0.2:80"]) := by
  have h := (C7_dialer (fun _ => .ok ["10.0.0.1", "10.0.0.2"])
    (fun a => if a = "10.0.0.2:80" then .ok ⟨1⟩
              else .error (.tag "connection refused"))
    "example.com" "80").2.1
    ["10.0.0.1", "10.0.0.2"] ["10.0.0.1"] "10.0.0.2" [] ⟨1⟩ rfl rfl
    (fun p hp => by
      have hp0 : p = "10.0.0.1" := by simpa using hp
      have hj1 : joinHostPort "10.0.0.1" "80" = "10.0.0.1:80" := by decide
      exact ⟨.tag "connection refused", by
        rw [hp0, hj1, if_neg (by decide)]⟩)
    (by
      have hj2 : joinHostPort "10.0.0.2" "80" = "10.0.0.2:80" := by decide
      rw [hj2, if_pos rfl])
  rw [h]
  have hj1 : joinHostPort "10.0.0.1" "80" = "10.0.0.1:80" := by decide
  have hj2 : joinHostPort "10.0.0.2" "80" = "10.0.0.2:80" := by decide
  simp [hj1, hj2]

/-! ## The request pool (`httpOutput.getReq`/`putReq`, http.go:307-332,
pool construction http.go:121-129) -/

/-- The relevant configuration fields consumed by `getReq`. -/
structure HttpConf where
  url : String
  username : String
  password : String
deriving DecidableEq, Repr

/-- The request produced by `http.NewRequest("POST", out.conf.URL, nil)`
in the pool's `New` function (http.go:122-128): no body, no headers, no
credentials. -/
def blankRequest : Request := ⟨none, none, none, none⟩

/-- The reset performed by `getReq` on the request obtained from the pool
(http.go:311-319): the body is replaced wholesale by a fresh buffer over
`data`, `User-Agent` and `Content-Type` are set, and basic-auth
credentials are set when a username is configured (`out.conf.Username !=
""`); with no username configured the `Authorization` state is left as it
was. -/
def resetReq (conf : HttpConf) (beatVersion : String) (req : Request)
    (data : List Nat) : Request :=
  { req with
    body := some data
    userAgent := some ("beat " ++ beatVersion)
    contentType := some "application/json"
    basicAuth :=
      if conf.username ≠ "" then some (conf.username, conf.password)
      else req.basicAuth }

/-- `httpOutput.getReq` (http.go:307-328).  `out.reqPool.Get()` pops an
idle request, or runs the pool's `New` when none is idle; `newReqErr`
models whether `http.NewRequest("POST", out.conf.URL, nil)` fails (the
`New` function stores that error, and `getReq`'s type assertions then
return it).  A successfully obtained request is reset and returned
together with the remaining idle pool. -/
def getReq (conf : HttpConf) (beatVersion : String)
    (newReqErr : Option GoErr) (pool : List Request) (data : List Nat) :
    Except GoErr Request × List Request :=
  match pool with
  | req :: rest => (.ok (resetReq conf beatVersion req data), rest)
  | [] =>
    match newReqErr with
    | some e => (.error e, [])
    | none => (.ok (resetReq conf beatVersion blankRequest data), [])

/-- `httpOutput.putReq` (http.go:330-332): return the request to the idle
pool. -/
def putReq (pool : List Request) (req : Request) : List Request :=
  req :: pool

/-- One acquire/use/release cycle as `send` performs it: `getReq(data)`,
then the deferred `putReq(req)` (http.go:284-288).  Returns the request
handed out (if any) and the pool afterwards. -/
def acquireReleaseCycle (conf : HttpConf) (beatVersion : String)
    (newReqErr : Option GoErr) (pool : List Request) (data : List Nat) :
    Option Request × List Request :=
  match getReq conf beatVersion newReqErr pool data with
  | (.ok req, pool2) => (some req, putReq pool2 req)
  | (.error _, pool2) => (none, pool2)

/-- A sequence of acquire/release cycles with the given payloads,
returning for each cycle the request that `getReq` handed out. -/
def runCycles (conf : HttpConf) (beatVersion : String)
    (newReqErr : Option GoErr) (pool : List Request) :
    List (List Nat) → List (Option Request)
  | [] => []
  | d :: ds =>
    let step := acquireReleaseCycle conf beatVersion newReqErr pool d
    step.1 :: runCycles conf beatVersion newReqErr step.2 ds

/-- C8: in any sequence of acquire/release cycles (from any pool state in
which no idle request carries credentials unless a username is
configured — in particular the initial empty pool), every request
`getReq` returns carries exactly the requested payload as its body (no
bytes of any earlier payload remain), freshly set `User-Agent` and
`Content-Type` headers, and basic-auth credentials exactly when a
username is configured. -/
theorem C8_getReq_fresh (conf : HttpConf) (beatVersion : String)
    (newReqErr : Option GoErr) (payloads : List (List Nat)) :
    ∀ (pool : List Request),
      (∀ r ∈ pool, conf.username = "" → r.basicAuth = none) →
      ∀ (i : Nat) (data : List Nat) (req : Request),
        payloads.get? i = some data →
        (runCycles conf beatVersion newReqErr pool payloads).get? i =
          some (some req) →
        req.body = some data ∧
        req.userAgent = some ("beat " ++ beatVersion) ∧
        req.contentType = some "application/json" ∧
        req.basicAuth =
          (if conf.username ≠ "" then some (conf.username, conf.password)
           else none) := by
  induction payloads with
  | nil => intro pool _ i data req hdata; cases hdata
  | cons d ds ih =>
    intro pool hinv i data req hdata hreq
    cases i with
    | zero =>
      have hd : d = data := by simpa using hdata
      subst hd
      cases pool with
      | cons r rest =>
        have hr : req = resetReq conf beatVersion r d := by
          simpa [runCycles, acquireReleaseCycle, getReq] using hreq.symm
        subst hr
        refine ⟨rfl, rfl, rfl, ?_⟩
        by_cases hu : conf.username = ""
        · simp [resetReq, hu, hinv r (by simp) hu]
        · simp [resetReq, hu]
      | nil =>
        cases hne : newReqErr with
        | some e =>
          rw [show (runCycles conf beatVersion newReqErr [] (d :: ds)).get? 0
              = some none by
            simp [runCycles, acquireReleaseCycle, getReq, hne]] at hreq
          cases hreq
        | none =>
          have hr : req = resetReq conf beatVersion blankRequest d := by
            simpa [runCycles, acquireReleaseCycle, getReq, hne] using hreq.symm
          subst hr
          refine ⟨rfl, rfl, rfl, ?_⟩
          by_cases hu : conf.username = ""
          · simp [resetReq, blankRequest, hu]
          · simp [resetReq, hu]
    | succ j =>
      have hstep :
          (runCycles conf beatVersion newReqErr pool (d :: ds)).get? (j + 1) =
            (runCycles conf beatVersion newReqErr
              (acquireReleaseCycle conf beatVersion newReqErr pool d).2
              ds).get? j := by
        simp [runCycles]
      rw [hstep] at hreq
      refine ih (acquireReleaseCycle conf beatVersion newReqErr pool d).2
        ?_ j data req (by simpa using hdata) hreq
      intro r hr hu
      cases pool with
      | cons r0 rest =>
        simp only [acquireReleaseCycle, getReq, putReq] at hr
        rcases List.mem_cons.mp hr with rfl | hr2
        · simp [resetReq, hu, hinv r0 (by simp) hu]
        · exact hinv r (by simp [hr2]) hu
      | nil =>
        cases hne : newReqErr with
        | some e =>
          simp only [acquireReleaseCycle, getReq, hne] at hr
          cases hr
        | none =>
          simp only [acquireReleaseCycle, getReq, putReq, hne] at hr
          rcases List.mem_cons.mp hr with rfl | hr2
          · simp [resetReq, blankRequest, hu]
          · cases hr2

/-- C8 witness: two cycles from the empty pool with username configured;
the second acquire reuses the released request yet carries only the new
payload, fresh headers, and the configured credentials. -/
theorem C8_getReq_fresh_witness :
    (Request.body ⟨some [2], some "beat 7.0", some "application/json",
        some ("user", "pass")⟩ = some [2]) ∧
    (Request.userAgent ⟨some [2], some "beat 7.0", some "application/json",
        some ("user", "pass")⟩ = some ("beat " ++ "7.0")) ∧
    (Request.contentType ⟨some [2], some "beat 7.0", some "application/json",
        some ("user", "pass")⟩ = some "application/json") ∧
    (Request.basicAuth ⟨some [2], some "beat 7.0", some "application/json",
        some ("user", "pass")⟩ =
      if ("user" : String) ≠ "" then some (("user" : String), ("pass" : String))
      else none) := by
  have h := C8_getReq_fresh ⟨"http://h/p", "user", "pass"⟩ "7.0" none
    [[1], [2]] [] (fun r hr => by cases hr) 1 [2]
    ⟨some [2], some "beat 7.0", some "application/json", some ("user", "pass")⟩
    rfl ?_
  · exact h
  · rfl

/-! ## The fixed-format extractor (`httpOutput.serializeOnlyFields`,
http.go:175-221) -/

/-- A value stored in an event's `common.MapStr` fields: a string, the
timestamp written at `fields["@timestamp"]`, or any other (non-string)
value. -/
inductive Value where
  | str (s : String)
  | timestamp
  | other (tag : String)
deriving DecidableEq, Repr

/-- Event fields as an association list read through `List.lookup`
(prepending a binding shadows the old one, i.e. a Go map write). -/
abbrev Fields := List (String × Value)

/-- The `for key, val := range out.conf.AddFields` loop
(http.go:178-180): write each configured extra field into the map. -/
def addAllFields (m : Fields) : List (String × Value) → Fields
  | [] => m
  | (k, v) :: rest => addAllFields ((k, v) :: m) rest

/-- `common.MapStr.GetValue(key)` for a plain key: the stored value and a
nil error when the key is present, or a nil value and a key-not-found
error when it is absent. -/
def getValue (m : Fields) (k : String) : Option Value × Option GoErr :=
  match m.lookup k with
  | some v => (some v, none)
  | none => (none, some (.tag "key not found"))

/-- A Go runtime panic as `serializeOnlyFields` can produce one. -/
inductive GoPanic where
  | typeAssertionFailed
  | indexOutOfRange (i : Nat)
deriving DecidableEq, Repr

/-- Result of one `serializeOnlyFields` call: a runtime panic, a returned
error, or the successfully serialized field map. -/
inductive SerOutcome where
  | panicked (p : GoPanic)
  | errored (e : GoErr)
  | ok (fields : Fields)
deriving DecidableEq, Repr

/-- The unconditional token-to-field assignments of
`serializeOnlyFields` (http.go:190-206), as (target field, token index)
pairs in source order. -/
def fixedTokenFields : List (String × Nat) :=
  [("ifindex", 3), ("actionCode", 4), ("aclTag", 6), ("ruleDesc", 8),
   ("protocol", 9), ("NFFOrDash", 10), ("srcIp", 11), ("srcPort", 12),
   ("dstIp", 13), ("dstPort", 14), ("octProto", 17), ("isInput", 19),
   ("isSlowpath", 21), ("hexFlegs", 23), ("invalidOrDash", 25),
   ("tcpflags", 26), ("rsvd", 28)]

/-- The assignments in the `len(slice) > 29` branch (http.go:208-212). -/
def extraTokenFields : List (String × Nat) :=
  [("dur", 30), ("pkts", 32), ("bytes", 34)]

/-- `strings.Split(s, sep)` for a one-character separator, on the
character list of `s`: the pieces between consecutive occurrences of the
separator, in order (`n` separators yield `n+1` pieces; the empty string
yields one empty piece). -/
def goSplit (sep : Char) : List Char → List (List Char)
  | [] => [[]]
  | c :: rest =>
    let r := goSplit sep rest
    if c = sep then [] :: r
    else
      match r with
      | [] => [[c]]
      | piece :: pieces => (c :: piece) :: pieces

/-- Executes a sequence of `fields[name] = slice[i]` assignments in
order; the first index at or past the end of `slice` raises an
index-out-of-range panic, as in Go. -/
def assignTokens (slice : List (List Char)) (m : Fields) :
    List (String × Nat) → Except GoPanic Fields
  | [] => .ok m
  | (name, i) :: rest =>
    match slice.get? i with
    | none => .error (.indexOutOfRange i)
    | some tok => assignTokens slice ((name, Value.str ⟨tok⟩) :: m) rest

/-- `httpOutput.serializeOnlyFields` (http.go:175-221): write
`@timestamp` and the configured `AddFields` into the event fields, call
`fields.GetValue("body")`, immediately type-assert the value to a string
and split it on single spaces (http.go:183 — the assertion runs *before*
the error check on http.go:185), then perform the indexed token
assignments, the last three only when more than 29 tokens exist.  The
final `json.Marshal` of a map of strings is modelled as always
succeeding. -/
def serializeOnlyFields (addFields : List (String × Value))
    (eventFields : Fields) : SerOutcome :=
  let fields := addAllFields (("@timestamp", Value.timestamp) :: eventFields)
    addFields
  match getValue fields "body" with
  | (body, errLookup) =>
    match body with
    | some (Value.str s) =>
      let slice := goSplit ' ' s.data
      match errLookup with
      | some e => .errored e
      | none =>
        match assignTokens slice fields fixedTokenFields with
        | .error p => .panicked p
        | .ok fields2 =>
          if slice.length > 29 then
            match assignTokens slice fields2 extraTokenFields with
            | .error p => .panicked p
            | .ok fields3 => .ok fields3
          else .ok fields2
    | _ => .panicked .typeAssertionFailed

/-- When every referenced token index is in range, the assignment
sequence completes without a panic. -/
theorem assignTokens_ok (slice : List (List Char)) :
    ∀ (idxs : List (String × Nat)) (m : Fields),
      (∀ p ∈ idxs, p.2 < slice.length) →
      ∃ m2, assignTokens slice m idxs = .ok m2 := by
  intro idxs
  induction idxs with
  | nil => exact fun m _ => ⟨m, rfl⟩
  | cons p rest ih =>
    intro m h
    obtain ⟨name, i⟩ := p
    have hi : i < slice.length := h (name, i) (by simp)
    obtain ⟨m2, hm2⟩ := ih ((name, Value.str ⟨slice[i]⟩) :: m)
      (fun q hq => h q (by simp [hq]))
    exact ⟨m2, by
      simp [assignTokens, List.get?_eq_getElem?, List.getElem?_eq_getElem hi,
        hm2]⟩

/-- On a token list of length 30 to 34, the `len(slice) > 29` branch's
assignments (`slice[30]`, `slice[32]`, `slice[34]`, http.go:209-211)
panic at the first out-of-range index among 30, 32 and 34. -/
theorem assignTokens_extra_panics (slice : List (List Char))
    (h30 : 30 ≤ slice.length) (h34 : slice.length ≤ 34) (m : Fields) :
    ∃ i, assignTokens slice m extraTokenFields =
      .error (.indexOutOfRange i) ∧ (i = 30 ∨ i = 32 ∨ i = 34) := by
  rcases Nat.lt_or_ge slice.length 31 with h31 | h31
  · have hn : slice[(30 : Nat)]? = none := List.getElem?_eq_none (by omega)
    exact ⟨30, by
      simp [assignTokens, extraTokenFields, List.get?_eq_getElem?, hn],
      Or.inl rfl⟩
  · rcases Nat.lt_or_ge slice.length 33 with h33 | h33
    · obtain ⟨v30, hs⟩ : ∃ v, slice[(30 : Nat)]? = some v :=
        ⟨_, List.getElem?_eq_getElem (by omega)⟩
      have hn : slice[(32 : Nat)]? = none := List.getElem?_eq_none (by omega)
      exact ⟨32, by
        simp [assignTokens, extraTokenFields, List.get?_eq_getElem?, hs, hn],
        Or.inr (Or.inl rfl)⟩
    · obtain ⟨v30, hs30⟩ : ∃ v, slice[(30 : Nat)]? = some v :=
        ⟨_, List.getElem?_eq_getElem (by omega)⟩
      obtain ⟨v32, hs32⟩ : ∃ v, slice[(32 : Nat)]? = some v :=
        ⟨_, List.getElem?_eq_getElem (by omega)⟩
      have hn : slice[(34 : Nat)]? = none := List.getElem?_eq_none (by omega)
      exact ⟨34, by
        simp [assignTokens, extraTokenFields, List.get?_eq_getElem?, hs30,
          hs32, hn],
        Or.inr (Or.inr rfl)⟩

/-- C9: on every event whose (post-merge) `body` field is a string
splitting into 30 to 34 space-separated tokens, `serializeOnlyFields`
does not return an error: the guard `len(slice) > 29` passes, the
accesses to tokens 30/32/34 go out of range, and the call panics with an
index-out-of-range at 30, 32 or 34 (http.go:208-212). -/
theorem C9_tokens_30_34_panic (addFields : List (String × Value))
    (eventFields : Fields) (s : String)
    (hbody : (addAllFields (("@timestamp", Value.timestamp) :: eventFields)
      addFields).lookup "body" = some (Value.str s))
    (h30 : 30 ≤ (goSplit ' ' s.data).length)
    (h34 : (goSplit ' ' s.data).length ≤ 34) :
    ∃ i, serializeOnlyFields addFields eventFields =
      .panicked (.indexOutOfRange i) ∧ (i = 30 ∨ i = 32 ∨ i = 34) := by
  have hfix : ∀ p ∈ fixedTokenFields, p.2 < (goSplit ' ' s.data).length := by
    intro p hp
    fin_cases hp <;> simp <;> omega
  obtain ⟨m2, hm2⟩ := assignTokens_ok (goSplit ' ' s.data) fixedTokenFields
    (addAllFields (("@timestamp", Value.timestamp) :: eventFields) addFields)
    hfix
  obtain ⟨i, hi, hor⟩ := assignTokens_extra_panics (goSplit ' ' s.data)
    h30 h34 m2
  refine ⟨i, ?_, hor⟩
  unfold serializeOnlyFields
  simp only [getValue, hbody, hm2, hi]
  rw [if_pos (by omega)]

/-- C9 witness: an event whose `body` is exactly 30 space-separated
tokens panics with an index-out-of-range. -/
theorem C9_tokens_30_34_panic_witness :
    ∃ i, serializeOnlyFields []
      [("body", Value.str
        "a a a a a a a a a a a a a a a a a a a a a a a a a a a a a a")] =
      .panicked (.indexOutOfRange i) ∧ (i = 30 ∨ i = 32 ∨ i = 34) :=
  C9_tokens_30_34_panic [] [("body", Value.str
      "a a a a a a a a a a a a a a a a a a a a a a a a a a a a a a")]
    "a a a a a a a a a a a a a a a a a a a a a a a a a a a a a a"
    (by decide) (by decide) (by decide)

/-- C10: on every event whose merged fields hold no `body` entry — or a
non-string one — `serializeOnlyFields` never reaches the error return it
declares (http.go:185-188): the type assertion `body.(string)` on
http.go:183 runs before the error check and panics. -/
theorem C10_missing_body_panics (addFields : List (String × Value))
    (eventFields : Fields)
    (hbody : ∀ s, (addAllFields (("@timestamp", Value.timestamp) :: eventFields)
      addFields).lookup "body" ≠ some (Value.str s)) :
    serializeOnlyFields addFields eventFields =
      .panicked .typeAssertionFailed := by
  unfold serializeOnlyFields
  cases hlk : (addAllFields (("@timestamp", Value.timestamp) :: eventFields)
      addFields).lookup "body" with
  | none => simp [getValue, hlk]
  | some v =>
    cases v with
    | str s => exact absurd hlk (hbody s)
    | timestamp => simp [getValue, hlk]
    | other t => simp [getValue, hlk]

/-- C10 witness: an event with no `body` field at all panics on the type
assertion instead of returning the lookup error. -/
theorem C10_missing_body_panics_witness :
    serializeOnlyFields [] [] = .panicked .typeAssertionFailed :=
  C10_missing_body_panics [] []
    (fun s h => by
      rw [show (addAllFields
          (("@timestamp", Value.timestamp) :: ([] : Fields)) []).lookup "body"
        = none from by decide] at h
      cases h)

end BeatsHttp
